import Mathlib

/-!
Verification of a small Redis-like server against its design document.

The development shallowly embeds the Go sources: the RESP codec
(`RESPParser` / `RESPWriter` in the protocol file) becomes pure functions
over byte lists, and the command handlers (`server.go`) become explicit
state-passing functions over a store that maps keys to entries.  Go
strings are byte lists (`GoStr`), `time.Time` is an integer count of
nanoseconds, and Go `int` is `Int` with the 64-bit range check that
`strconv.Atoi` performs made explicit.
-/

/-- Go strings are byte sequences; ASCII literals are embedded by code point. -/
abbrev GoStr := List Nat

/-- Byte list of an ASCII Lean string literal. -/
def gostr (s : String) : List Nat := s.data.map Char.toNat

/-- The two-byte line terminator. -/
def crlf : List Nat := [13, 10]

/-- One decimal digit byte test, as in strconv. -/
def isDigit (b : Nat) : Bool := decide (48 ≤ b) && decide (b ≤ 57)

/-- Accumulator loop of strconv digit parsing: n = n*10 + digit. -/
def digitsToNat : List Nat → Nat → Nat
  | [], acc => acc
  | d :: ds, acc => digitsToNat ds (acc * 10 + (d - 48))

/-- Signed value of a digit run: negated when the sign byte was a minus. -/
def signApply (neg : Bool) (m : Nat) : Int :=
  if neg then -(m : Int) else (m : Int)

/-- Shared body of `atoi` after the optional sign byte: the digit run must be
nonempty, all digits, and the signed value must fit in a 64-bit int, else
strconv reports an error. -/
def atoiCore (neg : Bool) (ds : List Nat) : Option Int :=
  if ds = [] then none
  else if ds.all isDigit then
    if -(2 ^ 63) ≤ signApply neg (digitsToNat ds 0) ∧
        signApply neg (digitsToNat ds 0) < 2 ^ 63 then
      some (signApply neg (digitsToNat ds 0))
    else none
  else none

/-- strconv.Atoi on a byte list: optional sign, decimal digits, 64-bit range. -/
def atoi : List Nat → Option Int
  | [] => none
  | b :: rest =>
    if b = 45 then atoiCore true rest
    else if b = 43 then atoiCore false rest
    else atoiCore false (b :: rest)

/-- Little-endian decimal digit bytes of n, with enough fuel to exhaust it. -/
def natReprAux : Nat → Nat → List Nat
  | 0, _ => []
  | fuel + 1, n => if n = 0 then [] else (n % 10 + 48) :: natReprAux fuel (n / 10)

/-- Decimal printing of a natural number, as fmt Sprintf with percent-d:
most significant digit first, and 0 prints as the single byte 48. -/
def natRepr (n : Nat) : List Nat :=
  if n = 0 then [48] else (natReprAux n n).reverse

/-- Decimal printing of a Go int: a minus sign byte before the magnitude when
negative. -/
def intRepr (n : Int) : List Nat :=
  if n < 0 then 45 :: natRepr n.natAbs else natRepr n.toNat

/-- bufio ReadString up to the newline byte: the raw line includes the
terminating 10; reaching end of stream first is an error. -/
def readRaw : List Nat → Option (List Nat × List Nat)
  | [] => none
  | b :: rest =>
    if b = 10 then some ([10], rest)
    else
      match readRaw rest with
      | none => none
      | some (l, r) => some (b :: l, r)

/-- strings.TrimSuffix with the two-byte terminator: strip it only when the
list actually ends with 13, 10. -/
def trimCRLF (l : List Nat) : List Nat :=
  if l.reverse.take 2 = [10, 13] then l.dropLast.dropLast else l

/-- readLine of the parser: raw line up to and including the newline byte,
then TrimSuffix of the two-byte terminator. -/
def readLine (s : List Nat) : Option (List Nat × List Nat) :=
  match readRaw s with
  | none => none
  | some (l, r) => some (trimCRLF l, r)

/-- RESP type tags. -/
inductive RESPType where
  | simpleString
  | respError
  | integer
  | bulkString
  | array
deriving DecidableEq

/-- The parsed value record, with the same fields (and zero values) as the Go
struct: Type, Str, Num, Bulk, Array. -/
inductive RESPValue where
  | mk (type : RESPType) (str : List Nat) (num : Int) (bulk : List Nat) (arr : List RESPValue)

/-- Outcome of a parsing step: a value with the unconsumed remainder, a
returned error, or a Go runtime panic. -/
inductive PResult (α : Type) where
  | ok (v : α) (rest : List Nat)
  | err
  | panic
deriving DecidableEq

/-- Value carrying only a simple string. -/
def simpleVal (s : List Nat) : RESPValue := .mk .simpleString s 0 [] []

/-- Value carrying only an error text. -/
def errVal (s : List Nat) : RESPValue := .mk .respError s 0 [] []

/-- Value carrying only an integer. -/
def intVal (n : Int) : RESPValue := .mk .integer [] n [] []

/-- Value carrying only a bulk payload. -/
def bulkVal (b : List Nat) : RESPValue := .mk .bulkString [] 0 b []

/-- Value carrying only an element list. -/
def arrVal (a : List RESPValue) : RESPValue := .mk .array [] 0 [] a

/-- One bufio Read into a fresh buffer of length n, as the parser uses it on a
stream that then ends: with n positive and no byte available it reports end of
stream; otherwise it fills the buffer with the available bytes, the rest
staying zero, and the parser converts the whole buffer. -/
def bufRead (n : Nat) (s : List Nat) : Option (List Nat × List Nat) :=
  if n ≠ 0 ∧ s = [] then none
  else some (s.take n ++ List.replicate (n - s.length) 0, s.drop n)

/-- parseBulkString: length line, the reserved -1 null case, the negative
make panic, then the payload read and the two terminator bytes consumed with
their errors ignored. -/
def parseBulkString (s : List Nat) : PResult RESPValue :=
  match readLine s with
  | none => .err
  | some (line, rest) =>
    match atoi line with
    | none => .err
    | some len =>
      if len = -1 then .ok (bulkVal []) rest
      else if len < 0 then .panic
      else
        match bufRead len.toNat rest with
        | none => .err
        | some (bulk, rest2) => .ok (bulkVal bulk) (rest2.drop 2)

/-- parseSimpleString: one trimmed line as the text. -/
def parseSimpleString (s : List Nat) : PResult RESPValue :=
  match readLine s with
  | none => .err
  | some (line, rest) => .ok (simpleVal line) rest

/-- parseError: one trimmed line as the text. -/
def parseError (s : List Nat) : PResult RESPValue :=
  match readLine s with
  | none => .err
  | some (line, rest) => .ok (errVal line) rest

/-- parseInteger: one trimmed line through Atoi. -/
def parseInteger (s : List Nat) : PResult RESPValue :=
  match readLine s with
  | none => .err
  | some (line, rest) =>
    match atoi line with
    | none => .err
    | some n => .ok (intVal n) rest

/-- The element loop of parseArray, parameterised by the recursive parser. -/
def parseElems (P : List Nat → PResult RESPValue) :
    Nat → List Nat → List RESPValue → PResult RESPValue
  | 0, s, acc => .ok (arrVal acc.reverse) s
  | n + 1, s, acc =>
    match P s with
    | .ok v rest => parseElems P n rest (v :: acc)
    | .err => .err
    | .panic => .panic

/-- parseArray: count line, then make of a slice of that count — a Go runtime
panic when the count is negative — then the element loop. -/
def parseArray (P : List Nat → PResult RESPValue) (s : List Nat) : PResult RESPValue :=
  match readLine s with
  | none => .err
  | some (line, rest) =>
    match atoi line with
    | none => .err
    | some count =>
      if count < 0 then .panic
      else parseElems P count.toNat rest []

/-- Parse: skip stray 13 or 10 bytes where a tag is expected, dispatch on the
tag byte, unknown tags are errors.  The fuel argument only bounds recursion
depth; every run in this development uses enough of it. -/
def Parse : Nat → List Nat → PResult RESPValue
  | 0, _ => .err
  | fuel + 1, s =>
    match s with
    | [] => .err
    | b :: rest =>
      if b = 13 || b = 10 then Parse fuel rest
      else if b = 42 then parseArray (Parse fuel) rest
      else if b = 36 then parseBulkString rest
      else if b = 43 then parseSimpleString rest
      else if b = 45 then parseError rest
      else if b = 58 then parseInteger rest
      else .err

/-- WriteSimpleString: tag 43, text, terminator. -/
def WriteSimpleString (s : List Nat) : List Nat := 43 :: (s ++ crlf)

/-- WriteError: tag 45, text, terminator. -/
def WriteError (m : List Nat) : List Nat := 45 :: (m ++ crlf)

/-- WriteBulkString: tag 36, decimal byte length, terminator, payload,
terminator. -/
def WriteBulkString (s : List Nat) : List Nat :=
  36 :: (natRepr s.length ++ crlf ++ s ++ crlf)

/-- WriteInteger: tag 58, decimal int, terminator. -/
def WriteInteger (n : Int) : List Nat := 58 :: (intRepr n ++ crlf)

/-- WriteNullBulkString: the fixed five bytes of the null bulk string frame. -/
def WriteNullBulkString : List Nat := [36, 45, 49, 13, 10]

/-! ## The server: store and command handlers (server.go) -/

/-- A stored value with its optional absolute expiry, in nanoseconds. -/
structure KeyValue where
  value : GoStr
  expiresAt : Option Int
deriving DecidableEq

/-- The data map of the server, as a finite-support mapping from keys to entries. -/
def Store : Type := GoStr → Option KeyValue

/-- Map update, as Go map assignment. -/
def storeSet (data : Store) (key : GoStr) (kv : KeyValue) : Store :=
  fun k => if k = key then some kv else data k

/-- Map deletion, as the Go delete builtin. -/
def storeDelete (data : Store) (key : GoStr) : Store :=
  fun k => if k = key then none else data k

/-- isExpired: true only when the entry exists, carries an expiry, and the
current time is strictly after it. -/
def isExpired (data : Store) (now : Int) (key : GoStr) : Bool :=
  match data key with
  | none => false
  | some kv =>
    match kv.expiresAt with
    | none => false
    | some t => decide (t < now)

/-- cleanupExpired: delete the key exactly when isExpired holds. -/
def cleanupExpired (data : Store) (now : Int) (key : GoStr) : Store :=
  if isExpired data now key then storeDelete data key else data

/-- The wrong-arity error text, with the command name between apostrophes. -/
def wrongArity (cmd : List Nat) : List Nat :=
  gostr "wrong number of arguments for " ++ [39] ++ cmd ++ [39] ++ gostr " command"

/-- strings.ToUpper restricted to ASCII bytes, which is all the dispatcher
compares against. -/
def toUpperBytes (s : GoStr) : GoStr :=
  s.map (fun b => if 97 ≤ b ∧ b ≤ 122 then b - 32 else b)

/-- Two-complement wrap of an integer into the signed 64-bit range, as Go
int64 arithmetic overflows. -/
def wrap64 (x : Int) : Int := (x + 2 ^ 63) % 2 ^ 64 - 2 ^ 63

/-- Round the nonnegative rational num/den to the nearest integer, ties to
even: the IEEE binary64 significand rounding used by every Go float64
operation below. -/
def roundEvenRat (num den : Nat) : Nat :=
  if 2 * (num % den) < den then num / den
  else if den < 2 * (num % den) then num / den + 1
  else if num / den % 2 = 0 then num / den else num / den + 1

/-- Search step for the binade of nsec/1e9: the first p with 1e9 le nsec*2^p,
which for nsec in [1, 1e9) gives 2^(-p) le nsec/1e9 < 2^(-p+1). -/
def subBinadeAux (nsec : Nat) : Nat → Nat → Nat
  | p, 0 => p
  | p, fuel + 1 =>
    if 1000000000 ≤ nsec * 2 ^ p then p else subBinadeAux nsec (p + 1) fuel

/-- Binade exponent (negated) of nsec/1e9 for nsec in [1, 1e9). -/
def subBinade (nsec : Nat) : Nat := subBinadeAux nsec 1 30

/-- Search step for the binade of a positive integer: the first e with
sec < 2^(e+1), which gives 2^e le sec. -/
def intBinadeAux (sec : Nat) : Nat → Nat → Nat
  | e, 0 => e
  | e, fuel + 1 =>
    if sec < 2 ^ (e + 1) then e else intBinadeAux sec (e + 1) fuel

/-- Floor of the base-2 logarithm of a positive integer. -/
def intBinade (sec : Nat) : Nat := intBinadeAux sec 0 64

/-- The value int(Duration.Seconds()) computes in Go for a positive duration
of d nanoseconds, modelled exactly: Seconds() returns
float64(sec) + float64(nsec)/1e9 with sec = d/1e9 and nsec = d%1e9, each
float64 operation rounding to nearest even in IEEE binary64, and the int
conversion truncating toward zero.  For d in the int64 range, float64(sec),
float64(nsec) and float64(1e9) are exact (below 2^53); the division result is
the correctly rounded significand qm at binade -p, and the sum sec + qm/2^(52+p)
in binade e = floor(log2 sec) is rounded at unit 2^(e-52) and then truncated.
Because the addition rounds to nearest, the result can exceed the truncated
whole seconds by one (first at sec = 2^24 with nsec = 999999999). -/
def goSeconds (d : Nat) : Nat :=
  if d % 1000000000 = 0 then d / 1000000000
  else
    let sec := d / 1000000000
    let nsec := d % 1000000000
    let p := subBinade nsec
    let qm := roundEvenRat (nsec * 2 ^ (52 + p)) 1000000000
    if sec = 0 then 0
    else
      let e := intBinade sec
      let m := roundEvenRat (sec * 2 ^ (52 + p) + qm) (2 ^ (e + p))
      m / 2 ^ (52 - e)

/-- EchoHandler.Handle: fewer than two elements is the arity error, otherwise
the reply is a bulk string of the element after the name. -/
def EchoHandle (args : List GoStr) : List Nat :=
  if args.length < 2 then WriteError (wrongArity (gostr "echo"))
  else WriteBulkString (args.getD 1 [])

/-- The EX and PX option scan of SetHandler.Handle, walking the arguments
after the key and value two at a time (the loop from index 3 in steps of
two): a keyword uppercased and matched, its value through Atoi and required
positive, the expiry overwritten each time; a lone trailing keyword or an
unknown keyword is a syntax error.  Returns the final optional expiry.  The
duration products seconds * 1e9 and ms * 1e6 are Go int64 multiplications
(time.Duration times time.Second or time.Millisecond) and wrap on overflow. -/
def scanOpts (now : Int) : List GoStr → Option Int → Except (List Nat) (Option Int)
  | [], acc => .ok acc
  | [_], _ => .error (gostr "syntax error")
  | o :: v :: rest, acc =>
    if toUpperBytes o = gostr "EX" then
      match atoi v with
      | none => .error (gostr "value is not an integer or out of range")
      | some seconds =>
        if seconds ≤ 0 then .error (gostr "value is not an integer or out of range")
        else scanOpts now rest (some (now + wrap64 (seconds * 1000000000)))
    else if toUpperBytes o = gostr "PX" then
      match atoi v with
      | none => .error (gostr "value is not an integer or out of range")
      | some ms =>
        if ms ≤ 0 then .error (gostr "value is not an integer or out of range")
        else scanOpts now rest (some (now + wrap64 (ms * 1000000)))
    else .error (gostr "syntax error")

/-- SetHandler.Handle: arity check, option scan, then the unconditional store
write and the OK reply.  Option errors leave the store untouched. -/
def SetHandle (data : Store) (now : Int) (args : List GoStr) : Store × List Nat :=
  if args.length < 3 then (data, WriteError (wrongArity (gostr "set")))
  else
    match scanOpts now (args.drop 3) none with
    | .error msg => (data, WriteError msg)
    | .ok expiresAt =>
      (storeSet data (args.getD 1 []) ⟨args.getD 2 [], expiresAt⟩,
        WriteSimpleString (gostr "OK"))

/-- GetHandler.Handle: arity check, lazy cleanup of the key, then a null bulk
string when absent or the value as a bulk string. -/
def GetHandle (data : Store) (now : Int) (args : List GoStr) : Store × List Nat :=
  if args.length ≠ 2 then (data, WriteError (wrongArity (gostr "get")))
  else
    let key := args.getD 1 []
    let data1 := cleanupExpired data now key
    match data1 key with
    | none => (data1, WriteNullBulkString)
    | some kv => (data1, WriteBulkString kv.value)

/-- TTLHandler.Handle: arity check, lazy cleanup, then -2 when absent, -1
when no expiry, deletion plus -2 when the remaining time is not positive, and
otherwise int(remaining.Seconds()), the remaining nanoseconds pushed through
the float64 conversion modelled by goSeconds. -/
def TTLHandle (data : Store) (now : Int) (args : List GoStr) : Store × List Nat :=
  if args.length ≠ 2 then (data, WriteError (wrongArity (gostr "ttl")))
  else
    let key := args.getD 1 []
    let data1 := cleanupExpired data now key
    match data1 key with
    | none => (data1, WriteInteger (-2))
    | some kv =>
      match kv.expiresAt with
      | none => (data1, WriteInteger (-1))
      | some t =>
        if t - now ≤ 0 then (storeDelete data1 key, WriteInteger (-2))
        else (data1, WriteInteger (goSeconds (t - now).toNat : Nat))


/-! ## Spec-side descriptions used by refinement statements -/

/-- The TTL reply as amended: -2 when absent or already expired (current
time at or past the expiry), -1 when present without expiry, otherwise the
remaining nanoseconds converted through the Go float64 Seconds path and
truncated to int (goSeconds), which equals the whole seconds truncated
toward zero except when the float addition rounds up to the next second. -/
def ttlReplySpec (data : Store) (now : Int) (key : GoStr) : List Nat :=
  match data key with
  | none => WriteInteger (-2)
  | some kv =>
    match kv.expiresAt with
    | none => WriteInteger (-1)
    | some t =>
      if t ≤ now then WriteInteger (-2)
      else WriteInteger (goSeconds (t - now).toNat : Nat)

/-- The entry left under the queried key by a TTL call, per the design
document: removed exactly when it was found expired, untouched otherwise. -/
def ttlEntrySpec (data : Store) (now : Int) (key : GoStr) : Option KeyValue :=
  match data key with
  | none => none
  | some kv =>
    match kv.expiresAt with
    | none => some kv
    | some t => if t ≤ now then none else some kv

/-- Concrete one-entry store used by counterexamples: key a, value v, expiry
at instant 100. -/
def storeExp100 : Store :=
  fun k => if k = gostr "a" then some ⟨gostr "v", some 100⟩ else none

/-- Concrete one-entry store without expiry, for witnesses. -/
def storeNoExp : Store :=
  fun k => if k = gostr "a" then some ⟨gostr "v", none⟩ else none

/-- Concrete one-entry store whose expiry sits 2^24 seconds plus 999999999
nanoseconds past time zero: the remaining duration whose float64 Seconds
conversion rounds up to the next whole second. -/
def storeBig : Store :=
  fun k => if k = gostr "a" then some ⟨gostr "v", some 16777216999999999⟩ else none

/-! ## Decimal printing round-trips through Atoi -/

/-- The digit accumulator applied to mapped digit bytes computes the base-10
value of the big-endian digit list, shifted past the accumulator. -/
theorem digitsToNat_map (L : List Nat) (acc : Nat) :
    digitsToNat (L.map (fun d => d + 48)) acc =
      acc * 10 ^ L.length + Nat.ofDigits 10 L.reverse := by
  induction L generalizing acc with
  | nil => simp [digitsToNat]
  | cons d ds ih =>
    simp only [List.map_cons, digitsToNat, Nat.add_sub_cancel, ih,
      List.reverse_cons, Nat.ofDigits_append, List.length_cons,
      List.length_reverse, Nat.ofDigits_singleton, pow_succ]
    ring

/-- The fueled digit extractor agrees with the mathematical digit list once
the fuel covers the number. -/
theorem natReprAux_eq (fuel n : Nat) (h : n ≤ fuel) :
    natReprAux fuel n = (Nat.digits 10 n).map (fun d => d + 48) := by
  induction fuel generalizing n with
  | zero =>
    have hn : n = 0 := by omega
    subst hn
    simp [natReprAux]
  | succ fuel ih =>
    by_cases hn : n = 0
    · subst hn
      simp [natReprAux]
    · rw [natReprAux, if_neg hn,
        Nat.digits_def' (by norm_num : (1 : Nat) < 10) (Nat.pos_of_ne_zero hn),
        List.map_cons]
      congr 1
      exact ih (n / 10) (by omega)

/-- The printed form is the reversed digit list, byte-encoded. -/
theorem natRepr_eq_digits (n : Nat) :
    natRepr n =
      if n = 0 then [48] else (Nat.digits 10 n).reverse.map (fun d => d + 48) := by
  unfold natRepr
  by_cases h : n = 0
  · simp [h]
  · rw [if_neg h, if_neg h, natReprAux_eq n n le_rfl, List.map_reverse]

/-- Reading back the decimal printing of a natural number recovers it. -/
theorem digitsToNat_natRepr (n : Nat) : digitsToNat (natRepr n) 0 = n := by
  rw [natRepr_eq_digits]
  by_cases h : n = 0
  · simp [h, digitsToNat]
  · simp only [h, if_false, digitsToNat_map, List.reverse_reverse,
      Nat.ofDigits_digits, Nat.zero_mul, Nat.zero_add]

/-- Every byte of a printed natural number is a decimal digit byte. -/
theorem natRepr_mem (n : Nat) : ∀ x ∈ natRepr n, 48 ≤ x ∧ x ≤ 57 := by
  intro x hx
  rw [natRepr_eq_digits] at hx
  by_cases h : n = 0
  · simp [h] at hx
    omega
  · simp only [h, if_false, List.mem_map, List.mem_reverse] at hx
    obtain ⟨d, hd, rfl⟩ := hx
    have := Nat.digits_lt_base (by norm_num) hd
    omega

/-- A printed natural number is never the empty byte list. -/
theorem natRepr_ne_nil (n : Nat) : natRepr n ≠ [] := by
  rw [natRepr_eq_digits]
  by_cases h : n = 0
  · simp [h]
  · simp only [h, if_false, ne_eq, List.map_eq_nil_iff, List.reverse_eq_nil_iff]
    exact Nat.digits_ne_nil_iff_ne_zero.mpr h

/-- All bytes of a printed natural number pass the digit test. -/
theorem natRepr_all_isDigit (n : Nat) : (natRepr n).all isDigit = true := by
  rw [List.all_eq_true]
  intro x hx
  have := natRepr_mem n x hx
  simp [isDigit]
  omega

/-- Atoi undoes the decimal printing of a 64-bit-range natural number. -/
theorem atoi_natRepr (n : Nat) (h : (n : Int) < 2 ^ 63) :
    atoi (natRepr n) = some (n : Int) := by
  obtain ⟨b, t, heq⟩ := List.exists_cons_of_ne_nil (natRepr_ne_nil n)
  have hb : 48 ≤ b ∧ b ≤ 57 := natRepr_mem n b (by rw [heq]; exact List.mem_cons_self b t)
  have hall : (b :: t).all isDigit = true := by rw [← heq]; exact natRepr_all_isDigit n
  have hval : digitsToNat (b :: t) 0 = n := by rw [← heq]; exact digitsToNat_natRepr n
  rw [heq]
  have hb45 : b ≠ 45 := by omega
  have hb43 : b ≠ 43 := by omega
  have hsign : signApply false (digitsToNat (b :: t) 0) = (n : Int) := by
    rw [hval, signApply, if_neg (by decide)]
  simp only [atoi, hb45, if_false, hb43, atoiCore, List.cons_ne_nil, hall,
    if_true, hsign]
  rw [if_pos]
  constructor <;> omega

/-- Atoi undoes the decimal printing of a 64-bit-range Go int. -/
theorem atoi_intRepr (n : Int) (h1 : -(2 ^ 63) ≤ n) (h2 : n < 2 ^ 63) :
    atoi (intRepr n) = some n := by
  unfold intRepr
  by_cases h : n < 0
  · have hne := natRepr_ne_nil n.natAbs
    have hall := natRepr_all_isDigit n.natAbs
    have hval := digitsToNat_natRepr n.natAbs
    have hsign : signApply true (digitsToNat (natRepr n.natAbs) 0) = n := by
      rw [hval, signApply, if_pos rfl]
      omega
    simp only [h, if_true, atoi, if_pos rfl, atoiCore, hne, if_false, hall,
      if_true, hsign]
    rw [if_pos]
    constructor <;> omega
  · push_neg at h
    have hcast : ((n.toNat : Nat) : Int) = n := Int.toNat_of_nonneg h
    have hlt : ((n.toNat : Nat) : Int) < 2 ^ 63 := by rw [hcast]; exact h2
    simp only [show ¬ n < 0 by omega, if_false]
    rw [atoi_natRepr n.toNat hlt, hcast]

/-- No byte of a printed natural number is a line-terminator byte. -/
theorem natRepr_no_term (n : Nat) : 10 ∉ natRepr n ∧ 13 ∉ natRepr n := by
  constructor <;> intro hx <;> exact absurd (natRepr_mem n _ hx) (by omega)

/-- No byte of a printed Go int is a line-terminator byte. -/
theorem intRepr_no_term (n : Int) : 10 ∉ intRepr n ∧ 13 ∉ intRepr n := by
  unfold intRepr
  by_cases h : n < 0 <;> simp only [h, if_true, if_false]
  · constructor <;> intro hx
    · rcases List.mem_cons.mp hx with h45 | hmem
      · omega
      · exact (natRepr_no_term n.natAbs).1 hmem
    · rcases List.mem_cons.mp hx with h45 | hmem
      · omega
      · exact (natRepr_no_term n.natAbs).2 hmem
  · exact natRepr_no_term n.toNat

/-! ## Line reading -/

/-- The raw read stops at the first newline byte, keeping it. -/
theorem readRaw_split (l rest : List Nat) (h : 10 ∉ l) :
    readRaw (l ++ 10 :: rest) = some (l ++ [10], rest) := by
  induction l with
  | nil => simp [readRaw]
  | cons b t ih =>
    have hb : b ≠ 10 := fun hb => h (hb ▸ List.mem_cons_self b t)
    have ht : 10 ∉ t := fun hm => h (List.mem_cons_of_mem b hm)
    simp [readRaw, hb, ih ht]

/-- TrimSuffix removes a final two-byte terminator, whatever precedes it. -/
theorem trimCRLF_crlf (l : List Nat) : trimCRLF (l ++ [13, 10]) = l := by
  unfold trimCRLF
  have hrev : (l ++ [13, 10]).reverse = 10 :: 13 :: l.reverse := by simp
  rw [hrev]
  have h1 : (l ++ [13, 10]).dropLast = l ++ [13] := by
    have h2 : l ++ [13, 10] = (l ++ [13]) ++ [10] := by simp
    rw [h2, List.dropLast_concat]
  rw [if_pos (show List.take 2 (10 :: 13 :: l.reverse) = [10, 13] from rfl)]
  rw [h1, List.dropLast_concat]

/-- TrimSuffix on a line ending in a bare newline byte: the terminator pair
is removed only when a 13 byte happens to precede the 10; a bare newline
stays in place. -/
theorem trimCRLF_lf (l : List Nat) :
    trimCRLF (l ++ [10]) =
      if l.getLast? = some 13 then l.dropLast else l ++ [10] := by
  rcases List.eq_nil_or_concat l with rfl | ⟨t, a, rfl⟩
  · simp [trimCRLF]
  · rw [List.concat_eq_append]
    unfold trimCRLF
    have hrev : ((t ++ [a]) ++ [10]).reverse = 10 :: a :: t.reverse := by simp
    rw [hrev]
    rw [show List.take 2 (10 :: a :: t.reverse) = [10, a] from rfl]
    by_cases ha : a = 13
    · subst ha
      rw [if_pos rfl, List.getLast?_concat, if_pos rfl]
      have h2 : ((t ++ [13]) ++ [10]).dropLast = t ++ [13] := List.dropLast_concat
      rw [h2]
    · rw [if_neg (by simp [ha]), List.getLast?_concat, if_neg (by simp [ha])]

/-- readLine is TrimSuffix after the raw read. -/
theorem readLine_eq (s l r : List Nat) (h : readRaw s = some (l, r)) :
    readLine s = some (trimCRLF l, r) := by
  unfold readLine
  rw [h]

/-- readLine on a stream whose first newline closes a full two-byte
terminator: the line before the terminator is returned and the terminator
consumed. -/
theorem readLine_crlf (l rest : List Nat) (h : 10 ∉ l) :
    readLine (l ++ 13 :: 10 :: rest) = some (l, rest) := by
  have h13 : 10 ∉ l ++ [13] := by
    intro hm
    rcases List.mem_append.mp hm with hm | hm
    · exact h hm
    · simp at hm
  have hsplit : readRaw (l ++ 13 :: 10 :: rest) = some (l ++ [13, 10], rest) := by
    have h1 : l ++ 13 :: 10 :: rest = (l ++ [13]) ++ 10 :: rest := by simp
    rw [h1, readRaw_split _ _ h13]
    simp
  rw [readLine_eq _ _ _ hsplit, trimCRLF_crlf]

/-! ## One decoding step per tag byte -/

/-- A simple-string tag dispatches to the simple-string parser. -/
theorem Parse_tag_simple (s : List Nat) :
    Parse 1 (43 :: s) = parseSimpleString s := rfl

/-- An error tag dispatches to the error parser. -/
theorem Parse_tag_error (s : List Nat) :
    Parse 1 (45 :: s) = parseError s := rfl

/-- An integer tag dispatches to the integer parser. -/
theorem Parse_tag_int (s : List Nat) :
    Parse 1 (58 :: s) = parseInteger s := rfl

/-- A bulk-string tag dispatches to the bulk-string parser. -/
theorem Parse_tag_bulk (s : List Nat) :
    Parse 1 (36 :: s) = parseBulkString s := rfl

/-- An array tag dispatches to the array parser. -/
theorem Parse_tag_array (s : List Nat) :
    Parse 1 (42 :: s) = parseArray (Parse 0) s := rfl

/-- Decoding an encoded simple string recovers the text and consumes exactly
the frame. -/
theorem parseSimpleString_write (s rest : List Nat) (h : 10 ∉ s) :
    parseSimpleString (s ++ 13 :: 10 :: rest) = .ok (simpleVal s) rest := by
  unfold parseSimpleString
  rw [readLine_crlf s rest h]

/-- Decoding an encoded error recovers the text and consumes exactly the
frame. -/
theorem parseError_write (s rest : List Nat) (h : 10 ∉ s) :
    parseError (s ++ 13 :: 10 :: rest) = .ok (errVal s) rest := by
  unfold parseError
  rw [readLine_crlf s rest h]

/-- Decoding an encoded integer recovers the value and consumes exactly the
frame. -/
theorem parseInteger_write (n : Int) (rest : List Nat)
    (h1 : -(2 ^ 63) ≤ n) (h2 : n < 2 ^ 63) :
    parseInteger (intRepr n ++ 13 :: 10 :: rest) = .ok (intVal n) rest := by
  unfold parseInteger
  rw [readLine_crlf _ _ (intRepr_no_term n).1]
  dsimp only
  rw [atoi_intRepr n h1 h2]

/-- Decoding an encoded bulk string recovers the payload, byte for byte, and
consumes exactly the frame. -/
theorem parseBulkString_write (b rest : List Nat)
    (hlen : ((b.length : Nat) : Int) < 2 ^ 63) :
    parseBulkString (natRepr b.length ++ 13 :: 10 :: (b ++ 13 :: 10 :: rest)) =
      .ok (bulkVal b) rest := by
  unfold parseBulkString
  rw [readLine_crlf _ _ (natRepr_no_term b.length).1]
  dsimp only
  rw [atoi_natRepr _ hlen]
  dsimp only
  rw [if_neg (by omega), if_neg (by omega), Int.toNat_natCast]
  unfold bufRead
  rw [if_neg (by simp)]
  dsimp only
  rw [List.take_left, List.drop_left]
  have hz : b.length - (b ++ 13 :: 10 :: rest).length = 0 := by
    simp
  rw [hz, List.replicate_zero, List.append_nil]
  rfl

/-! ## Claim theorems: the codec -/

/-- C2: encoding a Bulk String, Simple String, Integer or Error value with
the writer and decoding the produced bytes with the parser yields a
content-equal value, for all representable content: text free of the
protocol terminators for the line kinds, any bytes 0-255 for bulk payloads,
and 64-bit integers. -/
theorem C2_encode_decode_roundtrip (s m b : List Nat) (n : Int)
    (hs : 10 ∉ s ∧ 13 ∉ s) (hm : 10 ∉ m ∧ 13 ∉ m)
    (hn : -(2 ^ 63) ≤ n ∧ n < 2 ^ 63)
    (hb : ∀ x ∈ b, x < 256) (hbl : ((b.length : Nat) : Int) < 2 ^ 63) :
    Parse 1 (WriteSimpleString s) = .ok (simpleVal s) [] ∧
    Parse 1 (WriteError m) = .ok (errVal m) [] ∧
    Parse 1 (WriteInteger n) = .ok (intVal n) [] ∧
    Parse 1 (WriteBulkString b) = .ok (bulkVal b) [] := by
  refine ⟨?_, ?_, ?_, ?_⟩
  · rw [WriteSimpleString, crlf, Parse_tag_simple,
      show s ++ [13, 10] = s ++ 13 :: 10 :: [] from rfl,
      parseSimpleString_write s [] hs.1]
  · rw [WriteError, crlf, Parse_tag_error,
      show m ++ [13, 10] = m ++ 13 :: 10 :: [] from rfl,
      parseError_write m [] hm.1]
  · rw [WriteInteger, crlf, Parse_tag_int,
      show intRepr n ++ [13, 10] = intRepr n ++ 13 :: 10 :: [] from rfl,
      parseInteger_write n [] hn.1 hn.2]
  · have hshape : WriteBulkString b =
        36 :: (natRepr b.length ++ 13 :: 10 :: (b ++ 13 :: 10 :: [])) := by
      simp [WriteBulkString, crlf]
    rw [hshape, Parse_tag_bulk, parseBulkString_write b [] hbl]

/-- C2 witness: the round trip at concrete values, covering an embedded 0,
255, and terminator bytes inside a bulk payload. -/
theorem C2_encode_decode_roundtrip_witness :
    Parse 1 (WriteSimpleString (gostr "OK")) = .ok (simpleVal (gostr "OK")) [] ∧
    Parse 1 (WriteError (gostr "ERR")) = .ok (errVal (gostr "ERR")) [] ∧
    Parse 1 (WriteInteger (-42)) = .ok (intVal (-42)) [] ∧
    Parse 1 (WriteBulkString [0, 255, 13, 10]) = .ok (bulkVal [0, 255, 13, 10]) [] :=
  C2_encode_decode_roundtrip (gostr "OK") (gostr "ERR") [0, 255, 13, 10] (-42)
    ⟨by decide, by decide⟩ ⟨by decide, by decide⟩
    ⟨by decide, by decide⟩ (by decide) (by decide)

/-- C7 counterexample: the decoder returns for the null frame the very same
value, field for field, as for the declared-length-0 empty frame, so no
presence flag distinguishes them. -/
theorem C7_null_equals_empty_cex :
    Parse 1 (gostr "$-1\r\n") = .ok (bulkVal []) [] ∧
    Parse 1 (gostr "$0\r\n\r\n") = .ok (bulkVal []) [] :=
  ⟨rfl, rfl⟩

/-- C7 as amended: decoding a bulk frame of declared length -1 yields a bulk
string with empty payload, consuming no bytes past the length line, but the
result carries no presence flag and equals the empty bulk string value. -/
theorem C7_null_bulk_decode (rest : List Nat) :
    Parse 1 (gostr "$-1\r\n" ++ rest) = .ok (bulkVal []) rest := by
  have hshape : gostr "$-1\r\n" ++ rest = 36 :: ([45, 49] ++ 13 :: 10 :: rest) := rfl
  rw [hshape, Parse_tag_bulk, parseBulkString]
  rw [readLine_crlf [45, 49] rest (by decide)]
  rfl

/-- C8 counterexample: a line closed by a bare newline byte comes back with
that byte still in the content, which the claim says never happens. -/
theorem C8_bare_newline_cex :
    readLine (gostr "a\n") = some ([97, 10], []) ∧ 10 ∈ [97, 10] :=
  ⟨rfl, by decide⟩

/-- C8 as amended: the line read consumes bytes up to and including the
first newline byte; a trailing 13, 10 pair is stripped, but a bare newline
byte is kept in the returned content (TrimSuffix only removes the two-byte
terminator). -/
theorem C8_readLine_first_newline (l rest : List Nat) (h : 10 ∉ l) :
    readLine (l ++ 10 :: rest) =
      some ((if l.getLast? = some 13 then l.dropLast else l ++ [10]), rest) := by
  have hsplit : readRaw (l ++ 10 :: rest) = some (l ++ [10], rest) :=
    readRaw_split l rest h
  rw [readLine_eq _ _ _ hsplit, trimCRLF_lf]

/-- C8 witness: the amended line read at a terminator-closed line and at a
bare-newline line. -/
theorem C8_readLine_first_newline_witness :
    (10 ∉ [97, 13] ∧
      readLine ([97, 13] ++ 10 :: []) =
        some ((if [97, 13].getLast? = some 13 then [97, 13].dropLast
          else [97, 13] ++ [10]), [])) ∧
    (10 ∉ [97] ∧
      readLine ([97] ++ 10 :: []) =
        some ((if [97].getLast? = some 13 then [97].dropLast
          else [97] ++ [10]), [])) :=
  ⟨⟨by decide, C8_readLine_first_newline [97, 13] [] (by decide)⟩,
   ⟨by decide, C8_readLine_first_newline [97] [] (by decide)⟩⟩

/-- C9 counterexample: a stream that closes after two of five declared
payload bytes decodes successfully, with the payload silently zero-padded,
instead of failing. -/
theorem C9_truncated_success_cex :
    Parse 1 (gostr "$5\r\nab") = .ok (bulkVal [97, 98, 0, 0, 0]) [] := rfl

/-- C9 as amended: for a declared bulk length above the available payload,
the decoder fails only when no payload byte at all is available; with at
least one byte present it returns success, the payload zero-padded to the
declared length and the missing terminator ignored. -/
theorem C9_midframe_close (n : Nat) (a : List Nat)
    (h1 : 0 < n) (h2 : a.length < n) (h3 : ((n : Nat) : Int) < 2 ^ 63) :
    Parse 1 (36 :: (natRepr n ++ 13 :: 10 :: a)) =
      (if a = [] then .err
       else .ok (bulkVal (a ++ List.replicate (n - a.length) 0)) []) := by
  rw [Parse_tag_bulk, parseBulkString]
  rw [readLine_crlf _ _ (natRepr_no_term n).1]
  dsimp only
  rw [atoi_natRepr _ h3]
  dsimp only
  rw [if_neg (by omega), if_neg (by omega), Int.toNat_natCast]
  by_cases ha : a = []
  · subst ha
    rw [if_pos rfl, bufRead, if_pos ⟨by omega, rfl⟩]
  · rw [if_neg ha, bufRead, if_neg (by simp [ha])]
    dsimp only
    rw [List.take_of_length_le (show a.length ≤ n by omega),
      List.drop_of_length_le (show a.length ≤ n by omega)]
    rfl

/-- C9 witness: the amended statement at the concrete truncated frame. -/
theorem C9_midframe_close_witness :
    0 < 5 ∧ [97, 98].length < 5 ∧ ((5 : Nat) : Int) < 2 ^ 63 ∧
    Parse 1 (36 :: (natRepr 5 ++ 13 :: 10 :: [97, 98])) =
      (if ([97, 98] : List Nat) = [] then .err
       else .ok (bulkVal ([97, 98] ++ List.replicate (5 - [97, 98].length) 0)) []) :=
  ⟨by decide, by decide, by decide,
    C9_midframe_close 5 [97, 98] (by decide) (by decide) (by decide)⟩

/-- C10: an array frame whose count line parses as a negative integer drives
the array decoder into make with a negative length, a runtime panic, for any
fuel and any following bytes. -/
theorem C10_negative_count_panic (fuel : Nat) (rest : List Nat) :
    Parse (fuel + 1) (gostr "*-1\r\n" ++ rest) = .panic := by
  have hshape : gostr "*-1\r\n" ++ rest = 42 :: ([45, 49] ++ 13 :: 10 :: rest) := rfl
  rw [hshape]
  show parseArray (Parse fuel) ([45, 49] ++ 13 :: 10 :: rest) = .panic
  rw [parseArray, readLine_crlf [45, 49] rest (by decide)]
  rfl

/-! ## Claim theorems: the store and its commands -/

/-- Lazy cleanup of any key leaves an entry that is itself not expired
untouched: deleting another key cannot reach it, and the entry under the
cleaned key is only removed when expired. -/
theorem cleanupExpired_pres (data : Store) (now : Int) (key2 key : GoStr)
    (h : isExpired data now key = false) :
    cleanupExpired data now key2 key = data key := by
  unfold cleanupExpired storeDelete
  by_cases hk2 : isExpired data now key2 = true
  · rw [if_pos hk2]
    by_cases heq : key = key2
    · rw [← heq] at hk2
      rw [h] at hk2
      cases hk2
    · rw [if_neg heq]
  · rw [if_neg hk2]

/-- C3 counterexample: ECHO with two arguments after the name is answered
with a bulk string of the first one, not with the wrong-arity error the
claim requires for two or more arguments. -/
theorem C3_extra_args_cex :
    EchoHandle [gostr "ECHO", gostr "a", gostr "b"] = WriteBulkString (gostr "a") ∧
    EchoHandle [gostr "ECHO", gostr "a", gostr "b"] ≠
      WriteError (wrongArity (gostr "echo")) :=
  ⟨rfl, by decide⟩

/-- C3 as amended: ECHO replies the wrong-arity error only when no argument
follows the name (or the command is empty); with one or more arguments it
replies a bulk string equal to the first argument, ignoring any extras. -/
theorem C3_echo_arity (name msg : GoStr) (extra : List GoStr) :
    EchoHandle [name] = WriteError (wrongArity (gostr "echo")) ∧
    EchoHandle [] = WriteError (wrongArity (gostr "echo")) ∧
    EchoHandle (name :: msg :: extra) = WriteBulkString msg := by
  refine ⟨rfl, rfl, ?_⟩
  unfold EchoHandle
  rw [if_neg (by simp only [List.length_cons]; omega)]
  rfl

/-- C1 counterexample: with 2^24 seconds plus 999999999 nanoseconds
remaining, TTL answers 16777217, one more than the truncated whole seconds
16777216 the claim requires — the float64 addition inside Seconds() rounds
up to the next whole second before the int conversion truncates. -/
theorem C1_float_rounds_up_cex :
    (TTLHandle storeBig 0 [gostr "TTL", gostr "a"]).2 = WriteInteger 16777217 ∧
    (16777216999999999 : Nat) / 1000000000 = 16777216 ∧
    WriteInteger 16777217 ≠ WriteInteger 16777216 :=
  ⟨by decide, by decide, by decide⟩

/-- C1 as amended: the TTL reply and the effect on the queried entry follow
the per-key description: -2 for an absent or expired key, with the expired
record removed; -1 for a key without expiry; otherwise the remaining
nanoseconds converted by the Go float64 Seconds path and truncated to int,
which is the whole remaining seconds except that the float addition can
round up to the next second (first at 2^24 seconds plus 999999999
nanoseconds remaining). -/
theorem C1_ttl_semantics (data : Store) (now : Int) (key : GoStr) :
    (TTLHandle data now [gostr "TTL", key]).2 = ttlReplySpec data now key ∧
    (TTLHandle data now [gostr "TTL", key]).1 key = ttlEntrySpec data now key := by
  unfold TTLHandle ttlReplySpec ttlEntrySpec cleanupExpired isExpired storeDelete
  rw [if_neg (by simp)]
  dsimp only [List.getD_cons_succ, List.getD_cons_zero]
  cases hdk : data key with
  | none => simp [hdk]
  | some kv =>
    cases hexp : kv.expiresAt with
    | none => simp [hdk, hexp]
    | some t =>
      by_cases hlt : t < now
      · simp [hdk, hexp, hlt, show t ≤ now from le_of_lt hlt]
      · by_cases hle : t - now ≤ 0
        · have ht : t ≤ now := by omega
          simp [hdk, hexp, hlt, hle, ht]
        · have ht : ¬ t ≤ now := by omega
          simp [hdk, hexp, hlt, hle, ht]

/-- C4: a successful SET replaces the whole entry.  Setting a key with EX
100 and then setting it again without expiry options leaves an entry whose
expiry is cleared, so TTL answers -1; both SETs reply OK and neither touches
any other key. -/
theorem C4_set_overwrites (data : Store) (now1 now2 now3 : Int) (k v1 v2 : GoStr) :
    (SetHandle data now1 [gostr "SET", k, v1, gostr "EX", gostr "100"]).2 =
        WriteSimpleString (gostr "OK") ∧
    (SetHandle (SetHandle data now1 [gostr "SET", k, v1, gostr "EX", gostr "100"]).1
        now2 [gostr "SET", k, v2]).2 = WriteSimpleString (gostr "OK") ∧
    (SetHandle (SetHandle data now1 [gostr "SET", k, v1, gostr "EX", gostr "100"]).1
        now2 [gostr "SET", k, v2]).1 k = some ⟨v2, none⟩ ∧
    (TTLHandle (SetHandle (SetHandle data now1
        [gostr "SET", k, v1, gostr "EX", gostr "100"]).1 now2 [gostr "SET", k, v2]).1
        now3 [gostr "TTL", k]).2 = WriteInteger (-1) ∧
    ∀ k2, k2 ≠ k →
      (SetHandle data now1 [gostr "SET", k, v1, gostr "EX", gostr "100"]).1 k2 =
          data k2 ∧
      (SetHandle (SetHandle data now1 [gostr "SET", k, v1, gostr "EX", gostr "100"]).1
        now2 [gostr "SET", k, v2]).1 k2 = data k2 := by
  have h1 : SetHandle data now1 [gostr "SET", k, v1, gostr "EX", gostr "100"] =
      (storeSet data k ⟨v1, some (now1 + 100 * 1000000000)⟩,
        WriteSimpleString (gostr "OK")) := rfl
  have h2 : ∀ d : Store, SetHandle d now2 [gostr "SET", k, v2] =
      (storeSet d k ⟨v2, none⟩, WriteSimpleString (gostr "OK")) := fun d => rfl
  rw [h1, h2]
  refine ⟨rfl, rfl, by simp [storeSet], ?_, ?_⟩
  · simp [TTLHandle, cleanupExpired, isExpired, storeSet]
  · intro k2 hne
    constructor <;> simp [storeSet, hne]

/-- C4 witness: the overwrite scenario on the empty store at concrete keys
and values, including the untouched other key. -/
theorem C4_set_overwrites_witness :
    (SetHandle (fun _ => none) 0
        [gostr "SET", gostr "a", gostr "x", gostr "EX", gostr "100"]).2 =
      WriteSimpleString (gostr "OK") ∧
    (SetHandle (SetHandle (fun _ => none) 0
        [gostr "SET", gostr "a", gostr "x", gostr "EX", gostr "100"]).1
        0 [gostr "SET", gostr "a", gostr "y"]).2 = WriteSimpleString (gostr "OK") ∧
    (SetHandle (SetHandle (fun _ => none) 0
        [gostr "SET", gostr "a", gostr "x", gostr "EX", gostr "100"]).1
        0 [gostr "SET", gostr "a", gostr "y"]).1 (gostr "a") =
      some ⟨gostr "y", none⟩ ∧
    (TTLHandle (SetHandle (SetHandle (fun _ => none) 0
        [gostr "SET", gostr "a", gostr "x", gostr "EX", gostr "100"]).1
        0 [gostr "SET", gostr "a", gostr "y"]).1
        0 [gostr "TTL", gostr "a"]).2 = WriteInteger (-1) ∧
    gostr "b" ≠ gostr "a" ∧
    (SetHandle (fun _ => none) 0
        [gostr "SET", gostr "a", gostr "x", gostr "EX", gostr "100"]).1 (gostr "b") =
      (fun _ => none : Store) (gostr "b") ∧
    (SetHandle (SetHandle (fun _ => none) 0
        [gostr "SET", gostr "a", gostr "x", gostr "EX", gostr "100"]).1
        0 [gostr "SET", gostr "a", gostr "y"]).1 (gostr "b") =
      (fun _ => none : Store) (gostr "b") := by
  have h := C4_set_overwrites (fun _ => none) 0 0 0 (gostr "a") (gostr "x") (gostr "y")
  have hb := h.2.2.2.2 (gostr "b") (by decide)
  exact ⟨h.1, h.2.1, h.2.2.1, h.2.2.2.1, by decide, hb.1, hb.2⟩

/-- C5: an entry stored without expiry is never treated as absent and never
removed by the read commands, at every current time: GET on its key replies
its value, TTL on its key replies -1, and after a GET or TTL with any
argument list whatsoever the entry is still present unchanged. -/
theorem C5_no_expiry_persistence (data : Store) (key : GoStr) (kv : KeyValue)
    (hk : data key = some kv) (he : kv.expiresAt = none) (now : Int)
    (args : List GoStr) :
    (GetHandle data now [gostr "GET", key]).2 = WriteBulkString kv.value ∧
    (TTLHandle data now [gostr "TTL", key]).2 = WriteInteger (-1) ∧
    (GetHandle data now args).1 key = some kv ∧
    (TTLHandle data now args).1 key = some kv := by
  have hfalse : isExpired data now key = false := by
    unfold isExpired
    rw [hk]
    dsimp only
    rw [he]
  have hpres : ∀ key2, cleanupExpired data now key2 key = some kv := fun key2 => by
    rw [cleanupExpired_pres data now key2 key hfalse, hk]
  refine ⟨?_, ?_, ?_, ?_⟩
  · unfold GetHandle
    rw [if_neg (by simp)]
    dsimp only [List.getD_cons_succ, List.getD_cons_zero]
    rw [hpres key]
  · unfold TTLHandle
    rw [if_neg (by simp)]
    dsimp only [List.getD_cons_succ, List.getD_cons_zero]
    rw [hpres key]
    dsimp only
    rw [he]
  · unfold GetHandle
    by_cases hlen : args.length ≠ 2
    · rw [if_pos hlen]
      exact hk
    · rw [if_neg hlen]
      dsimp only
      cases hm : cleanupExpired data now (args.getD 1 []) (args.getD 1 []) with
      | none =>
        dsimp only
        exact hpres (args.getD 1 [])
      | some kv2 =>
        dsimp only
        exact hpres (args.getD 1 [])
  · unfold TTLHandle
    by_cases hlen : args.length ≠ 2
    · rw [if_pos hlen]
      exact hk
    · rw [if_neg hlen]
      dsimp only
      cases hm : cleanupExpired data now (args.getD 1 []) (args.getD 1 []) with
      | none =>
        dsimp only
        exact hpres (args.getD 1 [])
      | some kv2 =>
        dsimp only
        cases hm2 : kv2.expiresAt with
        | none =>
          dsimp only
          exact hpres (args.getD 1 [])
        | some t =>
          dsimp only
          by_cases ht : t - now ≤ 0
          · rw [if_pos ht]
            dsimp only
            unfold storeDelete
            by_cases heq : key = args.getD 1 []
            · exfalso
              rw [← heq] at hm
              rw [hpres key] at hm
              injection hm with hkv
              rw [← hkv] at hm2
              rw [he] at hm2
              cases hm2
            · rw [if_neg heq]
              exact hpres (args.getD 1 [])
          · rw [if_neg ht]
            dsimp only
            exact hpres (args.getD 1 [])

/-- C5 witness: the no-expiry entry of the concrete store survives a TTL on
another key and answers both reads. -/
theorem C5_no_expiry_persistence_witness :
    storeNoExp (gostr "a") = some ⟨gostr "v", none⟩ ∧
    (⟨gostr "v", none⟩ : KeyValue).expiresAt = none ∧
    ((GetHandle storeNoExp 7 [gostr "GET", gostr "a"]).2 =
        WriteBulkString (⟨gostr "v", none⟩ : KeyValue).value ∧
    (TTLHandle storeNoExp 7 [gostr "TTL", gostr "a"]).2 = WriteInteger (-1) ∧
    (GetHandle storeNoExp 7 [gostr "TTL", gostr "b"]).1 (gostr "a") =
        some ⟨gostr "v", none⟩ ∧
    (TTLHandle storeNoExp 7 [gostr "TTL", gostr "b"]).1 (gostr "a") =
        some ⟨gostr "v", none⟩) :=
  ⟨by decide, rfl,
    C5_no_expiry_persistence storeNoExp (gostr "a") ⟨gostr "v", none⟩
      (by decide) rfl 7 [gostr "TTL", gostr "b"]⟩

/-- C6 counterexample: at a current time exactly equal to the expiry
timestamp, GET still returns the stored value as a bulk string, not the null
bulk string the claim requires for every time at or past the expiry. -/
theorem C6_boundary_cex :
    (GetHandle storeExp100 100 [gostr "GET", gostr "a"]).2 =
      WriteBulkString (gostr "v") ∧
    WriteBulkString (gostr "v") ≠ WriteNullBulkString :=
  ⟨by decide, by decide⟩

/-- C6 as amended: an entry with an expiry is treated as absent by GET and
TTL at every time strictly past the expiry instant (null bulk string, -2,
and the record removed); at the boundary time equal to the expiry instant
the two reads disagree: TTL already answers -2 and removes the record, while
GET still returns the value. -/
theorem C6_expired_reads (data : Store) (now : Int) (key : GoStr)
    (kv : KeyValue) (t : Int)
    (hk : data key = some kv) (he : kv.expiresAt = some t) (h : t < now) :
    (GetHandle data now [gostr "GET", key]).2 = WriteNullBulkString ∧
    (TTLHandle data now [gostr "TTL", key]).2 = WriteInteger (-2) ∧
    (GetHandle data now [gostr "GET", key]).1 key = none ∧
    (TTLHandle data now [gostr "TTL", key]).1 key = none ∧
    (GetHandle data t [gostr "GET", key]).2 = WriteBulkString kv.value ∧
    (TTLHandle data t [gostr "TTL", key]).2 = WriteInteger (-2) ∧
    (TTLHandle data t [gostr "TTL", key]).1 key = none := by
  have htrue : isExpired data now key = true := by
    unfold isExpired
    rw [hk]
    dsimp only
    rw [he]
    exact decide_eq_true h
  have hfalse : isExpired data t key = false := by
    unfold isExpired
    rw [hk]
    dsimp only
    rw [he]
    simp
  have hdel : ∀ key0, cleanupExpired data now key key0 = storeDelete data key key0 := by
    intro key0
    unfold cleanupExpired
    rw [if_pos htrue]
  have hdelk : cleanupExpired data now key key = none := by
    rw [hdel key]
    unfold storeDelete
    rw [if_pos rfl]
  have hsame : cleanupExpired data t key key = some kv := by
    rw [cleanupExpired_pres data t key key hfalse, hk]
  refine ⟨?_, ?_, ?_, ?_, ?_, ?_, ?_⟩
  · unfold GetHandle
    rw [if_neg (by simp)]
    dsimp only [List.getD_cons_succ, List.getD_cons_zero]
    rw [hdelk]
  · unfold TTLHandle
    rw [if_neg (by simp)]
    dsimp only [List.getD_cons_succ, List.getD_cons_zero]
    rw [hdelk]
  · unfold GetHandle
    rw [if_neg (by simp)]
    dsimp only [List.getD_cons_succ, List.getD_cons_zero]
    rw [hdelk]
    dsimp only
    exact hdelk
  · unfold TTLHandle
    rw [if_neg (by simp)]
    dsimp only [List.getD_cons_succ, List.getD_cons_zero]
    rw [hdelk]
    dsimp only
    exact hdelk
  · unfold GetHandle
    rw [if_neg (by simp)]
    dsimp only [List.getD_cons_succ, List.getD_cons_zero]
    rw [hsame]
  · unfold TTLHandle
    rw [if_neg (by simp)]
    dsimp only [List.getD_cons_succ, List.getD_cons_zero]
    rw [hsame]
    dsimp only
    rw [he]
    dsimp only
    rw [if_pos (by omega)]
  · unfold TTLHandle
    rw [if_neg (by simp)]
    dsimp only [List.getD_cons_succ, List.getD_cons_zero]
    rw [hsame]
    dsimp only
    rw [he]
    dsimp only
    rw [if_pos (by omega)]
    dsimp only
    unfold storeDelete
    rw [if_pos rfl]

/-- C6 witness: the amended behaviour at the concrete store with expiry 100,
read at times 101 and 100. -/
theorem C6_expired_reads_witness :
    storeExp100 (gostr "a") = some ⟨gostr "v", some 100⟩ ∧
    (⟨gostr "v", some 100⟩ : KeyValue).expiresAt = some 100 ∧
    (100 : Int) < 101 ∧
    ((GetHandle storeExp100 101 [gostr "GET", gostr "a"]).2 = WriteNullBulkString ∧
    (TTLHandle storeExp100 101 [gostr "TTL", gostr "a"]).2 = WriteInteger (-2) ∧
    (GetHandle storeExp100 101 [gostr "GET", gostr "a"]).1 (gostr "a") = none ∧
    (TTLHandle storeExp100 101 [gostr "TTL", gostr "a"]).1 (gostr "a") = none ∧
    (GetHandle storeExp100 100 [gostr "GET", gostr "a"]).2 =
        WriteBulkString (⟨gostr "v", some 100⟩ : KeyValue).value ∧
    (TTLHandle storeExp100 100 [gostr "TTL", gostr "a"]).2 = WriteInteger (-2) ∧
    (TTLHandle storeExp100 100 [gostr "TTL", gostr "a"]).1 (gostr "a") = none) :=
  ⟨by decide, rfl, by decide,
    C6_expired_reads storeExp100 101 (gostr "a") ⟨gostr "v", some 100⟩ 100
      (by decide) rfl (by decide)⟩
